import Mathlib

/-!
Verification of the PFMEA agent pipeline (backend/app/services/agent_pipeline.py,
pfmea_engine.py, llm_service.py and the analysis route) against its
natural-language specification.  Python runtime values that flow through the
pipeline are shallowly embedded as `PyVal`; the orchestration functions are
translated as pure Lean functions over an oracle of model-call outcomes, and
the two bounded fan-out levels are modelled as a small transition system.
-/

set_option maxHeartbeats 1000000

/-- Embedding of the Python runtime values that can appear in a parsed JSON
model response (`json.loads` output plus `None` defaults).  Floats carry their
rational value; dictionaries are association lists in insertion order. -/
inductive PyVal where
  | vInt (n : Int)
  | vBool (b : Bool)
  | vStr (s : String)
  | vFloat (q : Rat)
  | vNull
  | vDict (entries : List (String × PyVal))
  | vList (elems : List PyVal)

/-- Association-list lookup, as Python dict key access for string keys. -/
def pyLookup (entries : List (String × PyVal)) (k : String) : Option PyVal :=
  match entries with
  | [] => none
  | (k', v) :: rest => if k' = k then some v else pyLookup rest k

/-- `d.get(k, default)` on a Python dict. -/
def pyGetD (entries : List (String × PyVal)) (k : String) (dflt : PyVal) : PyVal :=
  match pyLookup entries k with
  | some v => v
  | none => dflt

/-- Python truthiness (`bool(v)`) for the embedded values. -/
def pyTruthy (v : PyVal) : Bool :=
  match v with
  | .vInt n => n ≠ 0
  | .vBool b => b
  | .vStr s => s ≠ ""
  | .vFloat q => q ≠ 0
  | .vNull => false
  | .vDict entries => !entries.isEmpty
  | .vList elems => !elems.isEmpty

/-- Numeric value of a Python object for arithmetic comparison; `bool` is a
subclass of `int` in Python, so `True` counts as 1 and `False` as 0.  Strings,
`None`, dicts and lists are not numbers (comparing them with an int raises
`TypeError`). -/
def pyNum (v : PyVal) : Option Rat :=
  match v with
  | .vInt n => some (n : Rat)
  | .vBool b => some (if b then 1 else 0)
  | .vFloat q => some q
  | _ => none

/-- `isinstance(v, int)` — true for ints and bools (bool subclasses int). -/
def isPyIntInstance (v : PyVal) : Bool :=
  match v with
  | .vInt _ => true
  | .vBool _ => true
  | _ => false

/-- Digits-only parse of a list of characters to a natural number. -/
def digitsToNat (l : List Char) : Option Nat :=
  if l ≠ [] ∧ l.all Char.isDigit then
    some (l.foldl (fun a c => a * 10 + (c.toNat - 48)) 0)
  else none

/-- Whitespace characters removed by Python `str.strip()` (the ASCII ones;
exotic unicode whitespace is out of scope for the modelled inputs). -/
def isPySpace (c : Char) : Bool :=
  c = ' ' || c = '\t' || c = '\n' || c = '\r'

/-- `str.strip()` on the character list. -/
def stripChars (l : List Char) : List Char :=
  ((l.dropWhile isPySpace).reverse.dropWhile isPySpace).reverse

/-- CPython `int(s.strip())` on a string: strip surrounding whitespace, then
an optional sign followed by decimal digits. -/
def parseIntLit (s : String) : Option Int :=
  match stripChars s.data with
  | '+' :: rest => (digitsToNat rest).map Int.ofNat
  | '-' :: rest => (digitsToNat rest).map (fun n => -(n : Int))
  | l => (digitsToNat l).map Int.ofNat

/-- `int(str(v).strip())` as used in the rating coercion: an int converts to
itself, a string is parsed as an integer literal; `str()` of a bool, float,
None, dict or list is never a valid integer literal, so those fail. -/
def tryIntOfStr (v : PyVal) : Option Int :=
  match v with
  | .vInt n => some n
  | .vStr s => parseIntLit s
  | _ => none

/-! ## RiskMatrix (backend/app/services/pfmea_engine.py) -/

/-- Python-level errors that the pipeline can raise.  `exn` carries the
message of a generic `Exception` (the LLM adapter raises those); the message
payloads of the builtin error types are not modelled. -/
inductive PyErr where
  | exn (msg : String)
  | valueError
  | typeError
  | keyError
  | attributeError

/-- The `RiskMatrix.MATRIX` class constant: `{severity: {occurrence: level}}`. -/
def MATRIX : List (Int × List (Int × String)) :=
  [ (1, [(1, "low"), (2, "low"), (3, "low"), (4, "low"), (5, "low")]),
    (2, [(1, "low"), (2, "low"), (3, "low"), (4, "medium"), (5, "medium")]),
    (3, [(1, "low"), (2, "low"), (3, "medium"), (4, "high"), (5, "high")]),
    (4, [(1, "medium"), (2, "medium"), (3, "high"), (4, "high"), (5, "high")]),
    (5, [(1, "medium"), (2, "high"), (3, "high"), (4, "high"), (5, "high")]) ]

/-- `MATRIX[severity][occurrence]` as a partial lookup. -/
def matrixLookup (s o : Int) : Option String :=
  match (MATRIX.lookup s) with
  | some row => row.lookup o
  | none => none

/-- `RiskMatrix.get_risk_level` on genuine ints: validates both ratings are in
1..5 (raising `ValueError` otherwise) and reads the matrix. -/
def get_risk_level (s o : Int) : Except PyErr String :=
  if 1 ≤ s ∧ s ≤ 5 ∧ 1 ≤ o ∧ o ≤ 5 then
    match matrixLookup s o with
    | some r => .ok r
    | none => .error .keyError
  else .error .valueError

/-- `RiskMatrix.get_action_required`. -/
def get_action_required (risk_level : String) : String :=
  if risk_level = "high" then "yes"
  else if risk_level = "medium" then "maybe"
  else "no"

/-- `RiskMatrix.calculate_rpn` on genuine ints. -/
def calculate_rpn (s o : Int) : Except PyErr Int :=
  if 1 ≤ s ∧ s ≤ 5 ∧ 1 ≤ o ∧ o ≤ 5 then .ok (s * o)
  else .error .valueError

/-- Rank of a risk level under the ordering low < medium < high. -/
def riskRank (r : String) : Nat :=
  if r = "low" then 0 else if r = "medium" then 1 else 2

/-! ### Python-typed variants used at FINALIZE

After the correction loop the severity/occurrence variables can hold arbitrary
Python values (corrected ratings are written unchecked), so the calls
`RiskMatrix.calculate_rpn(severity, occurrence)` and
`RiskMatrix.get_risk_level(severity, occurrence)` must be modelled on `PyVal`:
the chained comparison `1 <= x <= 5` raises `TypeError` on non-numbers, and
the dict lookup `MATRIX[x]` matches numerically equal keys (`3.0` or `True`
hit the int keys) and raises `KeyError` otherwise. -/

/-- Numerator/denominator view of a Python number (denominator positive), for
executable comparison: ints and bools have denominator 1, floats carry their
exact rational components. -/
def pyNumND (v : PyVal) : Option (Int × Int) :=
  match v with
  | .vInt n => some (n, 1)
  | .vBool b => some (if b then 1 else 0, 1)
  | .vFloat q => some (q.num, (q.den : Int))
  | _ => none

/-- `a <= b` on Python values: numeric comparison (by cross-multiplication of
the positive-denominator fraction views, which agrees with the rational
order), `TypeError` otherwise. -/
def pyLeNum (a b : PyVal) : Except PyErr Bool :=
  match pyNumND a, pyNumND b with
  | some x, some y => .ok (decide (x.1 * y.2 ≤ y.1 * x.2))
  | _, _ => .error .typeError

/-- The chained comparison `1 <= v <= 5` with Python short-circuiting. -/
def pyRange15 (v : PyVal) : Except PyErr Bool :=
  match pyLeNum (.vInt 1) v with
  | .error e => .error e
  | .ok false => .ok false
  | .ok true => pyLeNum v (.vInt 5)

/-- Python multiplication restricted to numbers (the only case reachable after
the range check): int-like × int-like stays an int, otherwise a float. -/
def pyMul (a b : PyVal) : Except PyErr PyVal :=
  match a, b with
  | .vInt x, .vInt y => .ok (.vInt (x * y))
  | .vInt x, .vBool y => .ok (.vInt (x * (if y then 1 else 0)))
  | .vBool x, .vInt y => .ok (.vInt ((if x then 1 else 0) * y))
  | .vBool x, .vBool y => .ok (.vInt ((if x then 1 else 0) * (if y then 1 else 0)))
  | a', b' =>
    match pyNum a', pyNum b' with
    | some x, some y => .ok (.vFloat (x * y))
    | _, _ => .error .typeError

/-- `RiskMatrix.calculate_rpn` on Python values. -/
def calcRpnPy (s o : PyVal) : Except PyErr PyVal :=
  match pyRange15 s with
  | .error e => .error e
  | .ok false => .error .valueError
  | .ok true =>
    match pyRange15 o with
    | .error e => .error e
    | .ok false => .error .valueError
    | .ok true => pyMul s o

/-- Hash-key view of a Python value for the `MATRIX` dict lookup: numerically
equal keys collide, so ints, bools and integral floats reach the int keys. -/
def pyRatingKey (v : PyVal) : Option Int :=
  match v with
  | .vInt n => some n
  | .vBool b => some (if b then 1 else 0)
  | .vFloat q => if q.den = 1 then some q.num else none
  | _ => none

/-- `RiskMatrix.get_risk_level` on Python values. -/
def riskLevelPy (s o : PyVal) : Except PyErr String :=
  match pyRange15 s with
  | .error e => .error e
  | .ok false => .error .valueError
  | .ok true =>
    match pyRange15 o with
    | .error e => .error e
    | .ok false => .error .valueError
    | .ok true =>
      match pyRatingKey s, pyRatingKey o with
      | some si, some oi =>
        match matrixLookup si oi with
        | some r => .ok r
        | none => .error .keyError
      | _, _ => .error .keyError

/-! ## Rating coercion (agent_pipeline.py, process_failure_mode lines 399-435) -/

/-- Scan of a dict value list for the first entry with
`int(str(v).strip())` convertible (the inner `try` is per value). -/
def scanDictForInt (entries : List (String × PyVal)) : Option Int :=
  match entries with
  | [] => none
  | (_, v) :: rest =>
    match tryIntOfStr v with
    | some n => some n
    | none => scanDictForInt rest

/-- First coercion step, applied to each field independently: if the model
returned a dict, replace it by the first numeric-convertible value (the dict
is kept unchanged when no value converts). -/
def coerceStep1 (v : PyVal) : PyVal :=
  match v with
  | .vDict entries =>
    match scanDictForInt entries with
    | some n => .vInt n
    | none => .vDict entries
  | _ => v

/-- Direct conversion used in the shared `try` block:
`if not isinstance(x, int): x = int(str(x).strip())`, keeping `x` if it is
already an int (bools included). -/
def directConv (v : PyVal) : Option PyVal :=
  if isPyIntInstance v then some v
  else
    match tryIntOfStr v with
    | some n => some (.vInt n)
    | none => none

/-- Second coercion step.  In the source both direct conversions live inside a
single `try: ... except: pass`, so a failing severity conversion also skips
the occurrence conversion (severity keeps any value assigned before the
failure; here severity fails before assignment, occurrence keeps its value). -/
def coerceStep2 (sev occ : PyVal) : PyVal × PyVal :=
  match directConv sev with
  | some sev' =>
    match directConv occ with
    | some occ' => (sev', occ')
    | none => (sev', occ)
  | none => (sev, occ)

/-- Final range check with neutral default: a field that is not an int
instance or lies outside 1..5 becomes 3 (bool `True` counts as the int 1 and
is kept; the result is reported as its numeric value). -/
def coerceStep3 (v : PyVal) : Int :=
  match v with
  | .vInt n => if 1 ≤ n ∧ n ≤ 5 then n else 3
  | .vBool b => if b then 1 else 3
  | _ => 3

/-- The whole coercion of the RATE response pair, as executed by the code. -/
def coercePair (sev occ : PyVal) : Int × Int :=
  let s1 := coerceStep1 sev
  let o1 := coerceStep1 occ
  let p := coerceStep2 s1 o1
  (coerceStep3 p.1, coerceStep3 p.2)

/-- Modelled from the spec wording of the coercion rule, for comparison with
`coercePair`: each field independently — if a mapping, scan its values for the
first one convertible to an integer, otherwise attempt a direct
string-to-integer conversion; if the conversion fails or the result is
outside 1..5, substitute the neutral default 3. -/
def specCoerceField (v : PyVal) : Int :=
  let conv : Option Int :=
    match v with
    | .vDict entries => scanDictForInt entries
    | _ => tryIntOfStr v
  match conv with
  | some n => if 1 ≤ n ∧ n ≤ 5 then n else 3
  | none => 3

/-- Whether the severity side of the shared `try` block completes without an
exception (it is an int already, or its direct conversion succeeds). -/
def sevConvOk (sev : PyVal) : Bool :=
  (directConv (coerceStep1 sev)).isSome

/-- Whether a value is a Python bool (the one int-instance shape on which the
kept value differs from the spec's string-conversion description). -/
def isBoolVal (v : PyVal) : Bool :=
  match v with
  | .vBool _ => true
  | _ => false

/-! ## ModelClient retry (agent_pipeline.py `_generate_with_retry`,
llm_service.py `OllamaService.generate`) -/

/-- Substring containment on character lists (`pat in l` for strings). -/
def containsSub (pat : List Char) : List Char → Bool
  | [] => pat.isEmpty
  | c :: rest => pat.isPrefixOf (c :: rest) || containsSub pat rest

/-- The message check of `_generate_with_retry`:
`"timed out" in str(e).lower() or "timeout" in str(e).lower()`. -/
def msgIsTimeout (m : String) : Bool :=
  let lower := m.data.map Char.toLower
  containsSub "timed out".data lower || containsSub "timeout".data lower

/-- Message of the exception `generate` raises on `httpx.TimeoutException`. -/
def generateTimeoutMsg : String := "LLM request timed out. Please try again."

/-- Message of the exception `generate` raises on a non-timeout `httpx.HTTPError`. -/
def generateHttpErrMsg (detail : String) : String := "LLM service error: " ++ detail

/-- Message of the exception `generate` raises when `raise_for_status` fails
with an `httpx.HTTPStatusError` for a 504 response — a non-timeout transport
error caught by the `except httpx.HTTPError` branch and wrapped verbatim.
The httpx message quotes the status phrase (quote characters elided here);
what matters to the retry loop is that the lowered text contains the
substring "timeout". -/
def http504Msg : String :=
  generateHttpErrMsg
    "Server error 504 Gateway Timeout for url http://localhost:11434/api/chat"

/-- One `_generate_with_retry` execution over an oracle giving the outcome of
each underlying `generate` call (indexed from 0; errors carry `str(e)`).
Recursion is on the remaining retries `r`; `i` is the index of the call being
made, so the failure count when call `i` fails is `i + 1` and the sleep before
the next attempt is `base * (i + 1)`.  Returns the final outcome and the list
of sleeps performed. -/
def retryGo (outcomes : Nat → Except String PyVal) (base : Rat) :
    Nat → Nat → Except String PyVal × List Rat
  | 0, i => (outcomes i, [])
  | r + 1, i =>
    match outcomes i with
    | .ok v => (.ok v, [])
    | .error m =>
      if msgIsTimeout m then
        let p := retryGo outcomes base r (i + 1)
        (p.1, base * ((i : Rat) + 1) :: p.2)
      else (.error m, [])

/-- `_generate_with_retry(prompt, ..., retries, base_delay)` — the prompt and
sampling arguments do not influence the control flow and are not modelled. -/
def generate_with_retry (outcomes : Nat → Except String PyVal) (retries : Nat)
    (base : Rat) : Except String PyVal × List Rat :=
  retryGo outcomes base retries 0

/-- Default `retries` parameter of `_generate_with_retry`. -/
def defaultRetries : Nat := 2

/-- Default `base_delay` parameter of `_generate_with_retry` (5.0 seconds). -/
def defaultBaseDelay : Rat := 5

/-! ## Pipeline orchestration (agent_pipeline.py `analyze_step` and the inner
`process_failure_mode`)

Each phase is a pure function threading an error monad together with a trace
of emitted progress events and issued model calls.  Within one candidate the
code is strictly sequential, and with the candidate semaphore at capacity 1
candidates run sequentially in submission order, so a per-candidate oracle
`Nat → Except PyErr PyVal` giving the outcome of the candidate's n-th
`_generate_with_retry` call determines the run.  Prompt strings, logging, and
the justification-formatting cosmetics do not influence control flow or any
claimed field and are not modelled. -/

/-- Trace of observable side effects: progress events (step, status) in
emission order, and counts of ANALYZE / RATE / VALIDATE model calls. -/
structure Trace where
  events : List (String × String)
  aCalls : Nat
  rCalls : Nat
  vCalls : Nat

/-- The empty trace. -/
def Trace.nil : Trace := ⟨[], 0, 0, 0⟩

/-- Trace concatenation. -/
def Trace.app (t1 t2 : Trace) : Trace :=
  ⟨t1.events ++ t2.events, t1.aCalls + t2.aCalls, t1.rCalls + t2.rCalls,
    t1.vCalls + t2.vCalls⟩

/-- A pipeline computation: result-or-exception plus the trace produced. -/
def PRes (α : Type) : Type := Except PyErr α × Trace

/-- Sequencing: on an exception the remaining computation is skipped but the
trace produced so far is kept. -/
def pseq {α β : Type} (a : PRes α) (f : α → PRes β) : PRes β :=
  match a with
  | (.ok x, t) => ((f x).1, t.app (f x).2)
  | (.error e, t) => (.error e, t)

/-- Emit one progress event (`progress_callback` is modelled as present and
never failing; `await` vs fire-and-forget delivery does not change which
events are produced). -/
def emit (step status : String) : PRes Unit := (.ok (), ⟨[(step, status)], 0, 0, 0⟩)

/-- A computation with no side effects. -/
def plift {α : Type} (r : Except PyErr α) : PRes α := (r, Trace.nil)

/-- Record an ANALYZE model call with the supplied outcome. -/
def callAnalyze (resp : Except PyErr PyVal) : PRes PyVal := (resp, ⟨[], 1, 0, 0⟩)

/-- Record a RATE model call with the supplied outcome. -/
def callRate (resp : Except PyErr PyVal) : PRes PyVal := (resp, ⟨[], 0, 1, 0⟩)

/-- Record a VALIDATE model call with the supplied outcome. -/
def callValidate (resp : Except PyErr PyVal) : PRes PyVal := (resp, ⟨[], 0, 0, 1⟩)

/-- `v.get(k, default)` on a Python value: raises `AttributeError` unless the
receiver is a dict (e.g. when a response was a JSON list or null). -/
def pyValGetD (v : PyVal) (k : String) (dflt : PyVal) : Except PyErr PyVal :=
  match v with
  | .vDict entries => .ok (pyGetD entries k dflt)
  | _ => .error .attributeError

/-- `self.max_retries` (set to 2 in `__init__`). -/
def maxRetries : Nat := 2

/-- One-decimal fixed formatting of the confidence value, `f"{c:.1f}"`:
round 10·q to the nearest integer `n` (computed on the exact fraction; no
rounding ties are reachable) and print `n` with one decimal digit.  For every
reachable confidence (1.0, 0.8, 0.6) the binary-float computation
`1.0 - 0.2 * retry_count` formats to exactly the digits produced here, so
formatting the exact rational is faithful. -/
def formatFixed1 (q : Rat) : String :=
  let n : Int := (q.num * 20 + (q.den : Int)) / (2 * (q.den : Int))
  toString (n / 10) ++ "." ++ toString (n % 10)

/-- The finished record built at FINALIZE (fields not examined by any claim —
the justification strings, reasoning texts, subprocess/control-point
defaulting — are omitted; `confidence` keeps both the numeric value and the
formatted string actually stored in the result dict). -/
structure ResultR where
  failure_mode : PyVal
  potential_effect : PyVal
  severity : PyVal
  occurrence : PyVal
  rpn : PyVal
  risk_level : String
  act_required : String
  confidence : Rat
  confidence_str : String
  retry_count : Nat

/-- The VALIDATE/CORRECT loop (`while retry_count < self.max_retries`).
`fuel` equals `maxRetries - retry`, so recursion on `fuel` implements the loop
condition; `ci` is the index of the candidate's next model call; `vr`/`cr` are
the current validation/correction reasoning values.  Returns the final
severity, occurrence, retry count, next call index and reasoning values. -/
def vcLoop (oracle : Nat → Except PyErr PyVal) :
    Nat → PyVal → PyVal → Nat → Nat → PyVal → PyVal →
    PRes (PyVal × PyVal × Nat × Nat × PyVal × PyVal)
  | 0, sev, occ, retry, ci, vr, cr => (.ok (sev, occ, retry, ci, vr, cr), Trace.nil)
  | fuel + 1, sev, occ, retry, ci, _vr, cr =>
    pseq (emit "validate" "started") fun _ =>
    pseq (callValidate (oracle ci)) fun vres =>
    pseq (plift (pyValGetD vres "is_valid" (.vBool false))) fun isValid =>
    pseq (plift (pyValGetD vres "reasoning" (.vStr ""))) fun vreas =>
    pseq (plift (pyValGetD vres "issues" (.vList []))) fun _issues =>
    pseq (emit "validate" "completed") fun _ =>
    if pyTruthy isValid then (.ok (sev, occ, retry, ci + 1, vreas, cr), Trace.nil)
    else
    pseq (emit "correct" "started") fun _ =>
    pseq (plift (pyValGetD vres "corrected_ratings" (.vDict []))) fun corrected =>
    pseq (plift (pyValGetD corrected "severity" .vNull)) fun cs =>
    let sev1 := if pyTruthy cs then cs else sev
    pseq (plift (pyValGetD corrected "occurrence" .vNull)) fun co =>
    let occ1 := if pyTruthy co then co else occ
    pseq (plift (pyValGetD vres "correction_reasoning" (.vStr ""))) fun creas =>
    pseq (emit "correct" "completed") fun _ =>
    if retry + 1 < maxRetries then
      pseq (callRate (oracle (ci + 1))) fun rres =>
      pseq (plift (pyValGetD rres "severity" sev1)) fun sev2 =>
      pseq (plift (pyValGetD rres "occurrence" occ1)) fun occ2 =>
      vcLoop oracle fuel sev2 occ2 (retry + 1) (ci + 2) vreas creas
    else
      vcLoop oracle fuel sev1 occ1 (retry + 1) (ci + 1) vreas creas

/-- STEP 5, FINALIZE: confidence from the retry count, RPN / risk level /
action from the RiskEngine (on the possibly non-int current ratings), then the
awaited terminal result event. -/
def finalizePhase (fm eff sev occ : PyVal) (retry : Nat) :
    PRes ResultR :=
  pseq (emit "finalize" "started") fun _ =>
  let confidence : Rat := 1 - (1 / 5) * (retry : Rat)
  pseq (plift (calcRpnPy sev occ)) fun rpn =>
  pseq (plift (riskLevelPy sev occ)) fun risk =>
  pseq (emit "finalize" "completed") fun _ =>
  pseq (emit "result" "new_result") fun _ =>
  (.ok ⟨fm, eff, sev, occ, rpn, risk, get_action_required risk, confidence,
    formatFixed1 confidence, retry⟩, Trace.nil)

/-- The tail of `process_failure_mode` after the RATE response coercion has
produced in-range integers `s0`, `o0`: the rate-completed event, the
provisional RPN, the skip decision (fast mode or RPN < 9), the
VALIDATE/CORRECT loop on the slow path, and FINALIZE. -/
def ratedPhase (mode : Bool) (oracle : Nat → Except PyErr PyVal)
    (fm eff : PyVal) (s0 o0 : Int) : PRes (Option ResultR) :=
  pseq (emit "rate" "completed") fun _ =>
  pseq (plift (calculate_rpn s0 o0)) fun initialRpn =>
  if !mode || initialRpn < 9 then
    pseq (finalizePhase fm eff (.vInt s0) (.vInt o0) 0) fun r =>
    (.ok (some r), Trace.nil)
  else
    pseq (vcLoop oracle maxRetries (.vInt s0) (.vInt o0) 0 1 (.vStr "") (.vStr ""))
      fun out =>
    pseq (finalizePhase fm eff out.1 out.2.1 out.2.2.1) fun r =>
    (.ok (some r), Trace.nil)

/-- `process_failure_mode(fm_data)` under the candidate semaphore: empty-field
skip, RATE with coercion, then `ratedPhase` (skip decision, loop, FINALIZE).
`mode` is `include_justifications` (true = detailed). -/
def processFailureMode (mode : Bool) (fmData : PyVal)
    (oracle : Nat → Except PyErr PyVal) : PRes (Option ResultR) :=
  pseq (plift (pyValGetD fmData "failure_mode" (.vStr ""))) fun fm =>
  pseq (plift (pyValGetD fmData "potential_effect" (.vStr ""))) fun eff =>
  if !pyTruthy fm || !pyTruthy eff then (.ok none, Trace.nil)
  else
  pseq (emit "rate" "started") fun _ =>
  pseq (emit "rate" "processing") fun _ =>
  pseq (callRate (oracle 0)) fun rres =>
  pseq (plift (pyValGetD rres "severity" .vNull)) fun sevRaw =>
  pseq (plift (pyValGetD rres "occurrence" .vNull)) fun occRaw =>
  ratedPhase mode oracle fm eff (coercePair sevRaw occRaw).1
    (coercePair sevRaw occRaw).2

/-- `analyze_step(process_step, context, progress_callback)`: the single
ANALYZE call, fast-mode truncation to one candidate, sequential fan-out of the
candidates under the capacity-1 semaphore via `asyncio.gather` (which
re-raises the first exception, discarding sibling results), and the final
`None` filter.  `oracles i` is the oracle of candidate `i`. -/
def gatherCands (mode : Bool) (oracles : Nat → Nat → Except PyErr PyVal) :
    List PyVal → Nat → PRes (List (Option ResultR))
  | [], _ => (.ok [], Trace.nil)
  | fmData :: rest, i =>
    pseq (processFailureMode mode fmData (oracles i)) fun r =>
    pseq (gatherCands mode oracles rest (i + 1)) fun rs =>
    (.ok (r :: rs), Trace.nil)

/-- The body of `analyze_step` (see `gatherCands` for the fan-out). -/
def analyzeStep (mode : Bool) (analyzeResp : Except PyErr PyVal)
    (oracles : Nat → Nat → Except PyErr PyVal) : PRes (List ResultR) :=
  pseq (emit "analyze" "started") fun _ =>
  pseq (emit "analyze" "processing") fun _ =>
  pseq (callAnalyze analyzeResp) fun ares =>
  pseq (plift (pyValGetD ares "failure_modes" (.vList []))) fun fms =>
  pseq (plift (pyValGetD ares "reasoning" (.vStr ""))) fun _reason =>
  pseq (emit "analyze" "completed") fun _ =>
  if !pyTruthy fms then (.ok [], Trace.nil)
  else
    match fms with
    | .vList l =>
      let l1 := if !mode && decide (l.length > 1) then l.take 1 else l
      pseq (gatherCands mode oracles l1 0) fun opts =>
      (.ok (opts.filterMap id), Trace.nil)
    | _ => (.error .typeError, Trace.nil)

/-- The per-operation wrapper in `process_analysis`
(api/routes/analysis.py, `process_operation`): a raised exception from
`analyze_step` is caught, an operation-level error event is sent, and the
operation contributes an empty result list. -/
def processOperation (mode : Bool) (analyzeResp : Except PyErr PyVal)
    (oracles : Nat → Nat → Except PyErr PyVal) : List ResultR × Trace :=
  match analyzeStep mode analyzeResp oracles with
  | (.ok rs, t) =>
    (rs, (Trace.app ⟨[("operation", "started")], 0, 0, 0⟩
      (Trace.app t ⟨[("operation", "completed")], 0, 0, 0⟩)))
  | (.error _, t) =>
    ([], (Trace.app ⟨[("operation", "started")], 0, 0, 0⟩
      (Trace.app t ⟨[("operation", "error")], 0, 0, 0⟩)))

/-! ## Concurrency model (analysis.py `process_analysis` fan-out over
operations, agent_pipeline.py `analyze_step` fan-out over candidates)

`process_analysis` creates `asyncio.Semaphore(1)` and runs one
`process_operation` task per operation under it; each `analyze_step` call
creates its own `asyncio.Semaphore(self.failure_mode_concurrency)` and runs
one candidate task per failure mode under that.  The cooperative interleaving
of those tasks is modelled as a transition system: each operation task
acquires the operation gate, performs its ANALYZE model call(s), then holds
the gate while gathering its candidates; each candidate task needs its parent
to be gathering, acquires the parent's candidate gate, and performs its model
call(s).  `working b` means the task holds its gate and `b` tells whether it
is inside a model call right now; a capacity-1 acquisition is enabled exactly
when no other task holds the same gate. -/

/-- Program counter of an operation task. -/
inductive OpPC where
  | waitingGate
  | working (inCall : Bool)
  | gathering
  | opDone
deriving DecidableEq

/-- Program counter of a candidate task. -/
inductive FmPC where
  | waitingGate
  | working (inCall : Bool)
  | fmDone
deriving DecidableEq

/-- Global configuration: one operation task per `i : Fin N`, one candidate
task per candidate `j : Fin M` of each operation. -/
structure GateCfg (N M : Nat) where
  op : Fin N → OpPC
  fm : Fin N → Fin M → FmPC

/-- Whether an operation task currently holds the operation-level semaphore. -/
def opHolds : OpPC → Bool
  | .working _ => true
  | .gathering => true
  | _ => false

/-- Whether a candidate task currently holds its candidate-level semaphore. -/
def fmHolds : FmPC → Bool
  | .working _ => true
  | _ => false

/-- Whether an operation task is inside a model call. -/
def opInCall : OpPC → Bool
  | .working true => true
  | _ => false

/-- Whether a candidate task is inside a model call. -/
def fmInCall : FmPC → Bool
  | .working true => true
  | _ => false

/-- Update the program counter of operation `i`. -/
def setOp {N M : Nat} (c : GateCfg N M) (i : Fin N) (v : OpPC) : GateCfg N M :=
  ⟨Function.update c.op i v, c.fm⟩

/-- Update the program counter of candidate `j` of operation `i`. -/
def setFm {N M : Nat} (c : GateCfg N M) (i : Fin N) (j : Fin M) (v : FmPC) :
    GateCfg N M :=
  ⟨c.op, fun i' => if i' = i then Function.update (c.fm i) j v else c.fm i'⟩

/-- One interleaving step of the two-level fan-out with both semaphores at
their hard-coded capacity 1. -/
inductive GStep {N M : Nat} : GateCfg N M → GateCfg N M → Prop where
  | opAcquire (c : GateCfg N M) (i : Fin N) (h : c.op i = .waitingGate)
      (hfree : ∀ i', opHolds (c.op i') = false) :
      GStep c (setOp c i (.working false))
  | opEnter (c : GateCfg N M) (i : Fin N) (h : c.op i = .working false) :
      GStep c (setOp c i (.working true))
  | opExit (c : GateCfg N M) (i : Fin N) (h : c.op i = .working true) :
      GStep c (setOp c i (.working false))
  | opGather (c : GateCfg N M) (i : Fin N) (h : c.op i = .working false) :
      GStep c (setOp c i .gathering)
  | opRelease (c : GateCfg N M) (i : Fin N) (h : c.op i = .gathering)
      (hall : ∀ j, c.fm i j = .fmDone) :
      GStep c (setOp c i .opDone)
  | fmAcquire (c : GateCfg N M) (i : Fin N) (j : Fin M)
      (h : c.fm i j = .waitingGate) (hpar : c.op i = .gathering)
      (hfree : ∀ j', fmHolds (c.fm i j') = false) :
      GStep c (setFm c i j (.working false))
  | fmEnter (c : GateCfg N M) (i : Fin N) (j : Fin M)
      (h : c.fm i j = .working false) :
      GStep c (setFm c i j (.working true))
  | fmExit (c : GateCfg N M) (i : Fin N) (j : Fin M)
      (h : c.fm i j = .working true) :
      GStep c (setFm c i j (.working false))
  | fmRelease (c : GateCfg N M) (i : Fin N) (j : Fin M)
      (h : c.fm i j = .working false) :
      GStep c (setFm c i j .fmDone)

/-- Initial configuration: every task waits for its gate. -/
def initCfg (N M : Nat) : GateCfg N M :=
  ⟨fun _ => .waitingGate, fun _ _ => .waitingGate⟩

/-- Reachable configurations of one `process_analysis` run. -/
def ReachCfg {N M : Nat} (c : GateCfg N M) : Prop :=
  Relation.ReflTransGen GStep (initCfg N M) c

/-- Number of simultaneously outstanding model calls. -/
def inFlight {N M : Nat} (c : GateCfg N M) : Nat :=
  (Finset.univ.filter (fun i : Fin N => opInCall (c.op i) = true)).card +
  (Finset.univ.filter
    (fun p : Fin N × Fin M => fmInCall (c.fm p.1 p.2) = true)).card

/-- The semaphore-mutual-exclusion invariant: at most one holder per gate, and
a candidate can hold its gate only while its parent operation is gathering
(and hence holds the operation gate). -/
def GInv {N M : Nat} (c : GateCfg N M) : Prop :=
  (∀ i i' : Fin N, opHolds (c.op i) = true → opHolds (c.op i') = true → i = i') ∧
  (∀ (i : Fin N) (j j' : Fin M),
    fmHolds (c.fm i j) = true → fmHolds (c.fm i j') = true → j = j') ∧
  (∀ (i : Fin N) (j : Fin M), fmHolds (c.fm i j) = true → c.op i = .gathering)

/-! ### Semaphore allocation sites

The spec asserts one global `ConcurrencyGate` instance shared by both fan-out
levels; the code instead evaluates `asyncio.Semaphore(...)` at two distinct
sites, allocating a fresh object each time. -/

/-- `self.failure_mode_concurrency` (set to 1 in `AgenticPFMEAPipeline.__init__`). -/
def failure_mode_concurrency : Nat := 1

/-- A semaphore allocation site: the `asyncio.Semaphore(1)` in
`process_analysis`, or the `asyncio.Semaphore(self.failure_mode_concurrency)`
created by the `analyze_step` call of operation `opIndex`. -/
inductive SemSite where
  | analysisLevel
  | stepLevel (opIndex : Nat)
deriving DecidableEq

/-- Capacity passed to the `Semaphore` constructor at each site. -/
def semCapacity : SemSite → Nat
  | .analysisLevel => 1
  | .stepLevel _ => failure_mode_concurrency

/-- The distinct semaphore objects allocated during one `process_analysis`
run over `numOps` operations: the operation-level semaphore plus one fresh
candidate-level semaphore per `analyze_step` invocation. -/
def semaphoresAllocated (numOps : Nat) : List SemSite :=
  SemSite.analysisLevel :: (List.range numOps).map SemSite.stepLevel

/-! ## Helper lemmas -/

theorem trace_app_vCalls (t1 t2 : Trace) :
    (Trace.app t1 t2).vCalls = t1.vCalls + t2.vCalls := rfl

theorem pseq_fst_ok {α β : Type} (x : α) (t : Trace) (f : α → PRes β) :
    (pseq (.ok x, t) f).1 = (f x).1 := rfl

theorem pseq_fst_error {α β : Type} (e : PyErr) (t : Trace) (f : α → PRes β) :
    (pseq (.error e, t) f).1 = .error e := rfl

theorem pseq_fst_emit {β : Type} (s st : String) (f : Unit → PRes β) :
    (pseq (emit s st) f).1 = (f ()).1 := rfl

theorem pseq_fst_plift {α β : Type} (r : Except PyErr α) (f : α → PRes β) :
    (pseq (plift r) f).1 =
      (match r with | .ok x => (f x).1 | .error e => .error e) := by
  cases r <;> rfl

theorem pseq_fst_callRate {β : Type} (r : Except PyErr PyVal) (f : PyVal → PRes β) :
    (pseq (callRate r) f).1 =
      (match r with | .ok x => (f x).1 | .error e => .error e) := by
  cases r <;> rfl

theorem pseq_fst_callValidate {β : Type} (r : Except PyErr PyVal) (f : PyVal → PRes β) :
    (pseq (callValidate r) f).1 =
      (match r with | .ok x => (f x).1 | .error e => .error e) := by
  cases r <;> rfl

theorem pseq_fst_callAnalyze {β : Type} (r : Except PyErr PyVal) (f : PyVal → PRes β) :
    (pseq (callAnalyze r) f).1 =
      (match r with | .ok x => (f x).1 | .error e => .error e) := by
  cases r <;> rfl

theorem pyValGetD_dict (entries : List (String × PyVal)) (k : String) (d : PyVal) :
    pyValGetD (.vDict entries) k d = .ok (pyGetD entries k d) := rfl

/-! ## Claim theorems -/

/-- Claim C10: `get_action_required` is total over arbitrary strings and never
raises; it maps "high" to "yes", "medium" to "maybe", and every other string
(valid risk level or not) to "no". -/
theorem c10_action_total :
    get_action_required "high" = "yes" ∧
    get_action_required "medium" = "maybe" ∧
    get_action_required "low" = "no" ∧
    get_action_required "not a risk level" = "no" ∧
    (∀ s : String, s ≠ "high" → s ≠ "medium" → get_action_required s = "no") := by
  refine ⟨rfl, rfl, rfl, rfl, ?_⟩
  intro s h1 h2
  simp [get_action_required, h1, h2]

/-- Witness for C10 at the concrete non-risk-level input "garbage". -/
theorem c10_witness :
    ("garbage" : String) ≠ "high" ∧ ("garbage" : String) ≠ "medium" ∧
    get_action_required "garbage" = "no" :=
  ⟨by decide, by decide,
    c10_action_total.2.2.2.2 "garbage" (by decide) (by decide)⟩

/-- Claim C4 counterexample: the two direct string conversions share one
`try`/`except`, so a failing severity conversion also skips the occurrence
conversion — for the RATE response severity="abc", occurrence="4" the code
yields (3, 3) while the claimed per-field rule yields 4 for occurrence; and a
boolean severity is kept as an int instance (True = 1) instead of going
through the failing string conversion to the default 3. -/
theorem c4_counterexample :
    coercePair (.vStr "abc") (.vStr "4") = (3, 3) ∧
    specCoerceField (.vStr "abc") = 3 ∧
    specCoerceField (.vStr "4") = 4 ∧
    (coercePair (.vStr "abc") (.vStr "4")).2 ≠ specCoerceField (.vStr "4") ∧
    coercePair (.vBool true) (.vInt 2) = (1, 2) ∧
    specCoerceField (.vBool true) = 3 ∧
    (coercePair (.vBool true) (.vInt 2)).1 ≠ specCoerceField (.vBool true) := by
  refine ⟨rfl, rfl, rfl, by decide, rfl, rfl, by decide⟩

/-- A well-formed candidate used in concrete runs. -/
def okCand : PyVal :=
  .vDict [("failure_mode", .vStr "cracked weld"), ("potential_effect", .vStr "joint failure")]

/-- Candidate oracle raising a non-timeout exception at the RATE call. -/
def crashOracle : Nat → Except PyErr PyVal :=
  fun _ => .error (.exn "LLM service error: connection refused")

/-- Candidate oracle answering RATE with severity 3, occurrence 2 and nothing
else (provisional RPN 6 < 9). -/
def lowRiskOracle : Nat → Except PyErr PyVal
  | 0 => .ok (.vDict [("severity", .vInt 3), ("occurrence", .vInt 2)])
  | _ => .error (.exn "unused")

/-- Candidate oracle answering RATE with severity 4, occurrence 3
(provisional RPN 12 ≥ 9) and declaring the ratings valid at the first
VALIDATE. -/
def highRiskOracle : Nat → Except PyErr PyVal
  | 0 => .ok (.vDict [("severity", .vInt 4), ("occurrence", .vInt 3)])
  | 1 => .ok (.vDict [("is_valid", .vBool true)])
  | _ => .error (.exn "unused")

/-- ANALYZE response with two well-formed candidates. -/
def twoCandResp : Except PyErr PyVal :=
  .ok (.vDict [("failure_modes", .vList [okCand, okCand])])

/-- Per-candidate oracles: candidate 0 crashes at RATE, candidate 1 succeeds. -/
def crashFirstOracles : Nat → Nat → Except PyErr PyVal
  | 0, _ => .error (.exn "LLM service error: connection refused")
  | _, k => lowRiskOracle k

/-- Claim C1 counterexample: with two well-formed candidates whose RATE calls
are served by `crashFirstOracles` (candidate 0 raises a non-timeout error,
candidate 1 succeeds), `analyze_step` does not catch the exception — it
propagates through `asyncio.gather` to the caller, and the sibling result is
not in any returned sequence (there is none). -/
theorem c1_counterexample :
    (analyzeStep true twoCandResp crashFirstOracles).1 =
      Except.error (PyErr.exn "LLM service error: connection refused") := rfl

/-- Claim C1 amended: an unrecovered exception during RATE or VALIDATE for
one candidate propagates out of `process_failure_mode`, through
`asyncio.gather`, to the caller of `analyze_step`, discarding sibling
results; the catch, log, error-event emission and empty-result conversion
happen one level up, in `process_operation` inside `process_analysis`. -/
theorem c1_amended :
    (∀ (mode : Bool) (oracles : Nat → Nat → Except PyErr PyVal)
      (c : PyVal) (rest : List PyVal) (e : PyErr) (i : Nat),
      (processFailureMode mode c (oracles i)).1 = .error e →
      (gatherCands mode oracles (c :: rest) i).1 = .error e) ∧
    (∀ (mode : Bool) (analyzeResp : Except PyErr PyVal)
      (oracles : Nat → Nat → Except PyErr PyVal) (e : PyErr),
      (analyzeStep mode analyzeResp oracles).1 = .error e →
      (processOperation mode analyzeResp oracles).1 = [] ∧
      ("operation", "error") ∈ (processOperation mode analyzeResp oracles).2.events) := by
  constructor
  · intro mode oracles c rest e i h
    show (pseq (processFailureMode mode c (oracles i)) _).1 = .error e
    rcases hp : processFailureMode mode c (oracles i) with ⟨r, t⟩
    rw [hp] at h
    simp only at h
    subst h
    rfl
  · intro mode analyzeResp oracles e h
    unfold processOperation
    rcases ha : analyzeStep mode analyzeResp oracles with ⟨r, t⟩
    rw [ha] at h
    simp only at h
    subst h
    simp [Trace.app, List.mem_append]

/-- Witness for C1 amended at the concrete crashing run. -/
theorem c1_amended_witness :
    (gatherCands true crashFirstOracles [okCand] 0).1 =
      .error (PyErr.exn "LLM service error: connection refused") ∧
    (processOperation true twoCandResp crashFirstOracles).1 = [] ∧
    ("operation", "error") ∈ (processOperation true twoCandResp crashFirstOracles).2.events :=
  ⟨c1_amended.1 true crashFirstOracles okCand [] _ 0 rfl,
   (c1_amended.2 true twoCandResp crashFirstOracles _ rfl).1,
   (c1_amended.2 true twoCandResp crashFirstOracles _ rfl).2⟩

/-- Oracle driving a correction that writes severity 7 (out of range): RATE
gives (4, 3), the first VALIDATE reports invalid with corrected severity 7,
the re-issued RATE returns an empty object (keeping 7), the second VALIDATE
reports valid. -/
def oorOracle : Nat → Except PyErr PyVal
  | 0 => .ok (.vDict [("severity", .vInt 4), ("occurrence", .vInt 3)])
  | 1 => .ok (.vDict [("is_valid", .vBool false),
      ("corrected_ratings", .vDict [("severity", .vInt 7)])])
  | 2 => .ok (.vDict [])
  | 3 => .ok (.vDict [("is_valid", .vBool true)])
  | _ => .error (.exn "unused")

/-- Claim C2 counterexample: the value written from `corrected_ratings` is not
range-checked — after the CORRECT step the candidate holds severity 7 ∉ [1,5],
and FINALIZE's `calculate_rpn` then raises `ValueError` instead of receiving
in-range factors. -/
theorem c2_counterexample :
    (vcLoop oorOracle maxRetries (.vInt 4) (.vInt 3) 0 1 (.vStr "") (.vStr "")).1 =
      .ok (.vInt 7, .vInt 3, 1, 4, .vStr "", .vStr "") ∧
    (processFailureMode true okCand oorOracle).1 = Except.error PyErr.valueError := by
  exact ⟨rfl, rfl⟩

/-- Claim C8 counterexample: the two fan-out levels do not share one global
gate — a run over a single operation allocates two distinct semaphore
objects, the `asyncio.Semaphore(1)` of `process_analysis` and the fresh
`asyncio.Semaphore(failure_mode_concurrency)` created inside that
`analyze_step` call. -/
theorem c8_counterexample :
    semaphoresAllocated 1 = [SemSite.analysisLevel, SemSite.stepLevel 0] ∧
    SemSite.analysisLevel ≠ SemSite.stepLevel 0 ∧
    2 ≤ (semaphoresAllocated 1).length := by
  refine ⟨rfl, by decide, by decide⟩

/-- ANALYZE response with an empty-failure-mode candidate first and a
well-formed candidate second. -/
def skipFirstResp : Except PyErr PyVal :=
  .ok (.vDict [("failure_modes",
    .vList [.vDict [("failure_mode", .vStr "")], okCand])])

/-- Per-candidate oracles for `skipFirstResp`: the well-formed candidate 1
rates (3, 2); candidate 0 never reaches a model call. -/
def skipFirstOracles : Nat → Nat → Except PyErr PyVal
  | 1, k => lowRiskOracle k
  | _, _ => .error (.exn "never called")

/-- Claim C9: a candidate whose failure_mode or potential_effect is absent or
empty is skipped before any RATE call — no model call, no event (error or
otherwise), no result, no exception — and `analyze_step` still returns the
remaining candidates' results. -/
theorem c9_empty_candidate :
    (∀ (mode : Bool) (cand : List (String × PyVal)) (oracle : Nat → Except PyErr PyVal),
      (pyTruthy (pyGetD cand "failure_mode" (.vStr "")) = false ∨
        pyTruthy (pyGetD cand "potential_effect" (.vStr "")) = false) →
      processFailureMode mode (.vDict cand) oracle = (.ok none, Trace.nil)) ∧
    (∃ r, (analyzeStep true skipFirstResp skipFirstOracles).1 = .ok [r]) := by
  constructor
  · intro mode cand oracle h
    unfold processFailureMode
    rcases h with h | h <;>
      simp [pseq, plift, pyValGetD, h, Trace.app, Trace.nil]
  · exact ⟨_, rfl⟩

/-- Witness for C9 at a concrete candidate with an empty failure_mode. -/
theorem c9_witness :
    processFailureMode true
        (.vDict [("failure_mode", .vStr ""), ("potential_effect", .vStr "E")])
        (fun _ => .error (.exn "never called")) = (.ok none, Trace.nil) :=
  c9_empty_candidate.1 true _ _ (Or.inl rfl)

/-! ## Inversion lemmas for the pipeline -/

theorem pseq_inv1 {α β : Type} {a : PRes α} {f : α → PRes β} {b : β}
    (h : (pseq a f).1 = .ok b) : ∃ x, a.1 = .ok x ∧ (f x).1 = .ok b := by
  rcases a with ⟨r, t⟩
  cases r with
  | ok x => exact ⟨x, rfl, h⟩
  | error e => exact Except.noConfusion h

theorem pseq_snd_ok {α β : Type} (x : α) (t : Trace) (f : α → PRes β) :
    (pseq (.ok x, t) f).2 = t.app (f x).2 := rfl

theorem pseq_snd_error {α β : Type} (e : PyErr) (t : Trace) (f : α → PRes β) :
    (pseq (.error e, t) f).2 = t := rfl

theorem coerceStep3_range (v : PyVal) :
    1 ≤ coerceStep3 v ∧ coerceStep3 v ≤ 5 := by
  cases v <;> simp [coerceStep3]
  · rename_i n
    by_cases h : 1 ≤ n ∧ n ≤ 5
    · simp [h]
    · simp [h]
  · rename_i b
    cases b <;> simp

theorem coercePair_range (sev occ : PyVal) :
    1 ≤ (coercePair sev occ).1 ∧ (coercePair sev occ).1 ≤ 5 ∧
    1 ≤ (coercePair sev occ).2 ∧ (coercePair sev occ).2 ≤ 5 := by
  unfold coercePair
  refine ⟨(coerceStep3_range _).1, (coerceStep3_range _).2,
    (coerceStep3_range _).1, (coerceStep3_range _).2⟩

theorem calculate_rpn_ok {s o : Int} (hs1 : 1 ≤ s) (hs5 : s ≤ 5)
    (ho1 : 1 ≤ o) (ho5 : o ≤ 5) : calculate_rpn s o = .ok (s * o) := by
  simp [calculate_rpn, hs1, hs5, ho1, ho5]

theorem calcRpnPy_ok_inv {s o rpn : PyVal} (h : calcRpnPy s o = .ok rpn) :
    pyRange15 s = .ok true ∧ pyRange15 o = .ok true ∧ pyMul s o = .ok rpn := by
  unfold calcRpnPy at h
  rcases hs : pyRange15 s with e | bs <;> rw [hs] at h
  · exact Except.noConfusion h
  · cases bs
    · exact Except.noConfusion h
    · rcases ho : pyRange15 o with e | bo <;> rw [ho] at h
      · exact Except.noConfusion h
      · cases bo
        · exact Except.noConfusion h
        · exact ⟨rfl, rfl, h⟩

theorem riskLevelPy_ok_inv {s o : PyVal} {risk : String}
    (h : riskLevelPy s o = .ok risk) :
    ∃ si oi : Int, pyRatingKey s = some si ∧ pyRatingKey o = some oi ∧
      matrixLookup si oi = some risk := by
  unfold riskLevelPy at h
  split at h
  · exact Except.noConfusion h
  · exact Except.noConfusion h
  · split at h
    · exact Except.noConfusion h
    · exact Except.noConfusion h
    · split at h
      · rename_i si oi hks hko
        split at h
        · rename_i x hm
          refine ⟨si, oi, hks, hko, ?_⟩
          rw [← Except.ok.inj h]
          exact hm
        · exact Except.noConfusion h
      · exact Except.noConfusion h

theorem int_lookup_some {β : Type} {k : Int} {v : β} :
    ∀ (l : List (Int × β)), List.lookup k l = some v →
      ∃ p ∈ l, p.1 = k ∧ p.2 = v := by
  intro l
  induction l with
  | nil => intro h; exact Option.noConfusion h
  | cons hd tl ih =>
    rcases hd with ⟨hk, hv⟩
    intro h
    simp only [List.lookup] at h
    split at h
    · rename_i heq
      refine ⟨(hk, hv), by simp, ?_, Option.some.inj h⟩
      simpa [eq_comm] using (beq_iff_eq.mp heq)
    · obtain ⟨p, hp, h1, h2⟩ := ih h
      exact ⟨p, by simp [hp], h1, h2⟩

theorem matrixLookup_some_bounds {si oi : Int} {x : String}
    (h : matrixLookup si oi = some x) :
    1 ≤ si ∧ si ≤ 5 ∧ 1 ≤ oi ∧ oi ≤ 5 := by
  unfold matrixLookup at h
  rcases hrow : MATRIX.lookup si with _ | row
  · rw [hrow] at h
    exact Option.noConfusion h
  · rw [hrow] at h
    obtain ⟨p, hpmem, hp1, hp2⟩ := int_lookup_some _ hrow
    subst hp2
    obtain ⟨q, hqmem, hq1, _⟩ := int_lookup_some _ h
    subst hp1
    subst hq1
    unfold MATRIX at hpmem
    fin_cases hpmem <;> fin_cases hqmem <;> decide

theorem finalizePhase_ok {fm eff sev occ : PyVal} {retry : Nat} {r : ResultR}
    (h : (finalizePhase fm eff sev occ retry).1 = .ok r) :
    r.severity = sev ∧ r.occurrence = occ ∧
    calcRpnPy sev occ = .ok r.rpn ∧ riskLevelPy sev occ = .ok r.risk_level ∧
    r.act_required = get_action_required r.risk_level ∧
    r.confidence = 1 - (1 / 5) * (retry : Rat) ∧
    r.confidence_str = formatFixed1 r.confidence ∧
    r.retry_count = retry := by
  unfold finalizePhase at h
  obtain ⟨_, _, h⟩ := pseq_inv1 h
  obtain ⟨rpn, hrpn, h⟩ := pseq_inv1 h
  obtain ⟨risk, hrisk, h⟩ := pseq_inv1 h
  obtain ⟨_, _, h⟩ := pseq_inv1 h
  obtain ⟨_, _, h⟩ := pseq_inv1 h
  have hr := Except.ok.inj h
  subst hr
  exact ⟨rfl, rfl, hrpn, hrisk, rfl, rfl, rfl, rfl⟩

theorem vcLoop_retry_le {oracle : Nat → Except PyErr PyVal} :
    ∀ (fuel : Nat) (sev occ : PyVal) (retry ci : Nat) (vr cr : PyVal)
      (out : PyVal × PyVal × Nat × Nat × PyVal × PyVal),
      (vcLoop oracle fuel sev occ retry ci vr cr).1 = .ok out →
      out.2.2.1 ≤ retry + fuel := by
  intro fuel
  induction fuel with
  | zero =>
    intro sev occ retry ci vr cr out h
    have hout := Except.ok.inj h
    subst hout
    simp
  | succ fuel ih =>
    intro sev occ retry ci vr cr out h
    rw [vcLoop] at h
    obtain ⟨_, _, h⟩ := pseq_inv1 h
    obtain ⟨vres, hvres, h⟩ := pseq_inv1 h
    obtain ⟨isValid, hvalid, h⟩ := pseq_inv1 h
    obtain ⟨vreas, hvreas, h⟩ := pseq_inv1 h
    obtain ⟨_, hissues, h⟩ := pseq_inv1 h
    obtain ⟨_, _, h⟩ := pseq_inv1 h
    by_cases ht : pyTruthy isValid = true
    · rw [if_pos ht] at h
      have hout := Except.ok.inj h
      subst hout
      simp
    · rw [if_neg ht] at h
      obtain ⟨_, _, h⟩ := pseq_inv1 h
      obtain ⟨corrected, hcor, h⟩ := pseq_inv1 h
      obtain ⟨cs, hcs, h⟩ := pseq_inv1 h
      obtain ⟨co, hco, h⟩ := pseq_inv1 h
      obtain ⟨creas, hcreas, h⟩ := pseq_inv1 h
      obtain ⟨_, _, h⟩ := pseq_inv1 h
      by_cases hlt : retry + 1 < maxRetries
      · rw [if_pos hlt] at h
        obtain ⟨rres, hrres, h⟩ := pseq_inv1 h
        obtain ⟨sev2, hs2, h⟩ := pseq_inv1 h
        obtain ⟨occ2, ho2, h⟩ := pseq_inv1 h
        have := ih sev2 occ2 (retry + 1) (ci + 2) vreas creas out h
        omega
      · rw [if_neg hlt] at h
        have := ih _ _ (retry + 1) (ci + 1) vreas creas out h
        omega

theorem ratedPhase_ok_some {mode : Bool} {oracle : Nat → Except PyErr PyVal}
    {fm eff : PyVal} {s0 o0 : Int} {r : ResultR}
    (h : (ratedPhase mode oracle fm eff s0 o0).1 = .ok (some r)) :
    ∃ sev occ retry, retry ≤ maxRetries ∧
      (finalizePhase fm eff sev occ retry).1 = .ok r := by
  unfold ratedPhase at h
  obtain ⟨_, _, h⟩ := pseq_inv1 h
  obtain ⟨irpn, hirpn, h⟩ := pseq_inv1 h
  by_cases hskip : (!mode || decide (irpn < 9)) = true
  · rw [if_pos hskip] at h
    obtain ⟨r', hfin, h⟩ := pseq_inv1 h
    obtain rfl := Option.some.inj (Except.ok.inj h)
    exact ⟨_, _, 0, by omega, hfin⟩
  · rw [if_neg hskip] at h
    obtain ⟨out, hloop, h⟩ := pseq_inv1 h
    obtain ⟨r', hfin, h⟩ := pseq_inv1 h
    obtain rfl := Option.some.inj (Except.ok.inj h)
    have hb := vcLoop_retry_le maxRetries _ _ 0 1 _ _ out hloop
    exact ⟨out.1, out.2.1, out.2.2.1, by omega, hfin⟩

theorem processFailureMode_ok_some {mode : Bool} {fmData : PyVal}
    {oracle : Nat → Except PyErr PyVal} {r : ResultR}
    (h : (processFailureMode mode fmData oracle).1 = .ok (some r)) :
    ∃ fm eff sev occ retry, retry ≤ maxRetries ∧
      (finalizePhase fm eff sev occ retry).1 = .ok r := by
  unfold processFailureMode at h
  obtain ⟨fm, hfm, h⟩ := pseq_inv1 h
  obtain ⟨eff, heff, h⟩ := pseq_inv1 h
  by_cases hc : (!pyTruthy fm || !pyTruthy eff) = true
  · rw [if_pos hc] at h
    exact Option.noConfusion (Except.ok.inj h)
  · rw [if_neg hc] at h
    obtain ⟨_, _, h⟩ := pseq_inv1 h
    obtain ⟨_, _, h⟩ := pseq_inv1 h
    obtain ⟨rres, hrres, h⟩ := pseq_inv1 h
    obtain ⟨sevRaw, hsr, h⟩ := pseq_inv1 h
    obtain ⟨occRaw, hor, h⟩ := pseq_inv1 h
    obtain ⟨sev, occ, retry, hb, hfin⟩ := ratedPhase_ok_some h
    exact ⟨fm, eff, sev, occ, retry, hb, hfin⟩

/-- A placeholder record (only used as the default of `resultOf`). -/
def dummyResult : ResultR :=
  ⟨.vNull, .vNull, .vNull, .vNull, .vNull, "", "", 0, "", 0⟩

/-- The result of a run known to finish with one finalized record. -/
def resultOf (p : PRes (Option ResultR)) : ResultR :=
  match p.1 with
  | .ok (some r) => r
  | _ => dummyResult

/-- Candidate oracle driving two full correction iterations: RATE gives
(4, 3), both VALIDATE calls report invalid without corrected values, the
re-issued RATE returns an empty object. -/
def retryTwoOracle : Nat → Except PyErr PyVal
  | 0 => .ok (.vDict [("severity", .vInt 4), ("occurrence", .vInt 3)])
  | 1 => .ok (.vDict [("is_valid", .vBool false)])
  | 2 => .ok (.vDict [])
  | 3 => .ok (.vDict [("is_valid", .vBool false)])
  | _ => .error (.exn "unused")

/-- Claim C6: every finalized candidate carries
confidence = 1.0 − 0.2·retry_count with 0 ≤ retry_count ≤ max_retries (= 2);
in particular confidence is 1.0 at retry_count 0 and 0.6 at retry_count 2,
and the result's confidence field is the one-decimal rendering of that
value. -/
theorem c6_confidence :
    (∀ (mode : Bool) (fmData : PyVal) (oracle : Nat → Except PyErr PyVal)
      (r : ResultR),
      (processFailureMode mode fmData oracle).1 = .ok (some r) →
      r.confidence = 1 - (1 / 5) * (r.retry_count : Rat) ∧
      r.retry_count ≤ maxRetries ∧
      r.confidence_str = formatFixed1 r.confidence) ∧
    (1 : Rat) - (1 / 5) * ((0 : Nat) : Rat) = 1 ∧
    (1 : Rat) - (1 / 5) * ((2 : Nat) : Rat) = 3 / 5 ∧
    formatFixed1 (1 - (1 / 5) * ((0 : Nat) : Rat)) = "1.0" ∧
    formatFixed1 (1 - (1 / 5) * ((2 : Nat) : Rat)) = "0.6" ∧
    (∃ r : ResultR, (processFailureMode true okCand retryTwoOracle).1 =
      .ok (some r) ∧ r.retry_count = 2) ∧
    (∃ r : ResultR, (processFailureMode true okCand lowRiskOracle).1 =
      .ok (some r) ∧ r.retry_count = 0) := by
  refine ⟨?_, by norm_num, by norm_num, ?_, ?_, ⟨_, rfl, rfl⟩, ⟨_, rfl, rfl⟩⟩
  · intro mode fmData oracle r h
    obtain ⟨fm, eff, sev, occ, retry, hb, hfin⟩ := processFailureMode_ok_some h
    obtain ⟨_, _, _, _, _, hconf, hstr, hretry⟩ := finalizePhase_ok hfin
    refine ⟨?_, ?_, hstr⟩
    · rw [hconf, hretry]
    · omega
  · rw [show (1 : Rat) - (1 / 5) * ((0 : Nat) : Rat) = mkRat 1 1 by
      norm_num [Rat.mkRat_eq_div]]
    rfl
  · rw [show (1 : Rat) - (1 / 5) * ((2 : Nat) : Rat) = mkRat 3 5 by
      norm_num [Rat.mkRat_eq_div]]
    rfl

/-- Witness for C6 at the concrete two-correction run. -/
theorem c6_witness :
    (resultOf (processFailureMode true okCand retryTwoOracle)).confidence =
      1 - (1 / 5) *
        ((resultOf (processFailureMode true okCand retryTwoOracle)).retry_count : Rat) ∧
    (resultOf (processFailureMode true okCand retryTwoOracle)).retry_count ≤ maxRetries ∧
    (resultOf (processFailureMode true okCand retryTwoOracle)).confidence_str =
      formatFixed1 (resultOf (processFailureMode true okCand retryTwoOracle)).confidence :=
  c6_confidence.1 true okCand retryTwoOracle _ rfl

/-- Claim C2 amended: the initial coercion always yields severity and
occurrence in [1,5], but the values written during CORRECT (from
`corrected_ratings`) and by the re-issued RATE call are taken verbatim with
no range check, so they can leave [1,5] — in which case FINALIZE's
`calculate_rpn` raises a domain error and the candidate produces no result
(see the counterexample).  Consequently every candidate that does reach a
result has final ratings that are numerically integers in [1,5], and its rpn
is the product computed by `calculate_rpn` on them. -/
theorem c2_amended :
    (∀ sev occ : PyVal,
      1 ≤ (coercePair sev occ).1 ∧ (coercePair sev occ).1 ≤ 5 ∧
      1 ≤ (coercePair sev occ).2 ∧ (coercePair sev occ).2 ≤ 5) ∧
    (∀ (mode : Bool) (fmData : PyVal) (oracle : Nat → Except PyErr PyVal)
      (r : ResultR),
      (processFailureMode mode fmData oracle).1 = .ok (some r) →
      ∃ si oi : Int,
        pyRatingKey r.severity = some si ∧ pyRatingKey r.occurrence = some oi ∧
        1 ≤ si ∧ si ≤ 5 ∧ 1 ≤ oi ∧ oi ≤ 5 ∧
        calcRpnPy r.severity r.occurrence = .ok r.rpn ∧
        (∀ a b : Int, r.severity = .vInt a → r.occurrence = .vInt b →
          r.rpn = .vInt (a * b))) := by
  constructor
  · exact coercePair_range
  · intro mode fmData oracle r h
    obtain ⟨fm, eff, sev, occ, retry, hb, hfin⟩ := processFailureMode_ok_some h
    obtain ⟨hsev, hocc, hcalc, hrisk, _, _, _, _⟩ := finalizePhase_ok hfin
    subst hsev
    subst hocc
    obtain ⟨si, oi, hks, hko, hm⟩ := riskLevelPy_ok_inv hrisk
    obtain ⟨h1, h2, h3, h4⟩ := matrixLookup_some_bounds hm
    refine ⟨si, oi, hks, hko, h1, h2, h3, h4, hcalc, ?_⟩
    intro a b ha hb
    obtain ⟨_, _, hmul⟩ := calcRpnPy_ok_inv hcalc
    rw [ha, hb] at hmul
    have hmul' := hmul
    simp only [pyMul, Except.ok.injEq] at hmul'
    exact hmul'.symm

/-- The record produced by the concrete high-risk run. -/
def highRiskRun : ResultR := resultOf (processFailureMode true okCand highRiskOracle)

/-- Witness for C2 amended at the concrete high-risk run. -/
theorem c2_amended_witness :
    ∃ si oi : Int,
      pyRatingKey highRiskRun.severity = some si ∧
      pyRatingKey highRiskRun.occurrence = some oi ∧
      1 ≤ si ∧ si ≤ 5 ∧ 1 ≤ oi ∧ oi ≤ 5 ∧
      calcRpnPy highRiskRun.severity highRiskRun.occurrence = .ok highRiskRun.rpn ∧
      (∀ a b : Int, highRiskRun.severity = .vInt a →
        highRiskRun.occurrence = .vInt b → highRiskRun.rpn = .vInt (a * b)) :=
  c2_amended.2 true okCand highRiskOracle highRiskRun rfl

theorem pseq_vCalls_last {α β : Type} (a : PRes α) (f : α → PRes β)
    (hf : ∀ x, (f x).2.vCalls = 0) : (pseq a f).2.vCalls = a.2.vCalls := by
  rcases a with ⟨r, t⟩
  cases r <;> simp [pseq, Trace.app, hf]

theorem pseq_vCalls_ge {α β : Type} (a : PRes α) (f : α → PRes β) :
    a.2.vCalls ≤ (pseq a f).2.vCalls := by
  rcases a with ⟨r, t⟩
  cases r <;> simp [pseq, Trace.app]

theorem finalizePhase_vCalls (fm eff sev occ : PyVal) (retry : Nat) :
    (finalizePhase fm eff sev occ retry).2.vCalls = 0 := by
  unfold finalizePhase
  rcases hc : calcRpnPy sev occ with e | rpn <;>
    rcases hr : riskLevelPy sev occ with e2 | risk <;>
      simp [pseq, emit, plift, Trace.app, Trace.nil, hc, hr]

theorem vcLoop_vCalls_pos (oracle : Nat → Except PyErr PyVal)
    (fuel : Nat) (sev occ : PyVal) (retry ci : Nat) (vr cr : PyVal) :
    1 ≤ (vcLoop oracle (fuel + 1) sev occ retry ci vr cr).2.vCalls := by
  rw [vcLoop]
  rcases ho : oracle ci with e | vres <;>
    simp [pseq, emit, callValidate, plift, Trace.app, Trace.nil, ho]

theorem ratedPhase_vCalls {mode : Bool} {oracle : Nat → Except PyErr PyVal}
    {fm eff : PyVal} {s0 o0 : Int}
    (hs1 : 1 ≤ s0) (hs5 : s0 ≤ 5) (ho1 : 1 ≤ o0) (ho5 : o0 ≤ 5) :
    ((ratedPhase mode oracle fm eff s0 o0).2.vCalls = 0 ↔
      (mode = false ∨ s0 * o0 < 9)) := by
  unfold ratedPhase
  rw [calculate_rpn_ok hs1 hs5 ho1 ho5]
  simp only [emit, plift, pseq_snd_ok, trace_app_vCalls]
  by_cases hcond : (!mode || decide (s0 * o0 < 9)) = true
  · rw [if_pos hcond]
    rw [pseq_vCalls_last _ _ (fun _ => rfl), finalizePhase_vCalls]
    simp only [Bool.or_eq_true, Bool.not_eq_true', decide_eq_true_iff] at hcond
    exact iff_of_true (by simp [Trace.nil]) hcond
  · rw [if_neg hcond]
    have h1 : 1 ≤ (vcLoop oracle maxRetries (PyVal.vInt s0) (PyVal.vInt o0)
        0 1 (PyVal.vStr "") (PyVal.vStr "")).2.vCalls :=
      vcLoop_vCalls_pos oracle 1 _ _ 0 1 _ _
    have h2 := pseq_vCalls_ge
      (vcLoop oracle maxRetries (PyVal.vInt s0) (PyVal.vInt o0)
        0 1 (PyVal.vStr "") (PyVal.vStr ""))
      (fun out => pseq (finalizePhase fm eff out.1 out.2.1 out.2.2.1)
        (fun r => ((Except.ok (some r) : Except PyErr (Option ResultR)), Trace.nil)))
    simp only [Bool.or_eq_true, Bool.not_eq_true', decide_eq_true_iff] at hcond
    push_neg at hcond
    constructor
    · intro hz
      omega
    · intro hcases
      rcases hcases with hm | hlt
      · exact absurd hm hcond.1
      · omega

theorem processFailureMode_vCalls {mode : Bool}
    {cand entries : List (String × PyVal)} {oracle : Nat → Except PyErr PyVal}
    (hfm : pyTruthy (pyGetD cand "failure_mode" (.vStr "")) = true)
    (heff : pyTruthy (pyGetD cand "potential_effect" (.vStr "")) = true)
    (h0 : oracle 0 = .ok (.vDict entries)) :
    (processFailureMode mode (.vDict cand) oracle).2.vCalls =
      (ratedPhase mode oracle (pyGetD cand "failure_mode" (.vStr ""))
        (pyGetD cand "potential_effect" (.vStr ""))
        (coercePair (pyGetD entries "severity" .vNull)
          (pyGetD entries "occurrence" .vNull)).1
        (coercePair (pyGetD entries "severity" .vNull)
          (pyGetD entries "occurrence" .vNull)).2).2.vCalls := by
  unfold processFailureMode
  rw [h0]
  simp [pseq, plift, pyValGetD, emit, callRate, Trace.app, hfm, heff,
    pyValGetD_dict, pseq_snd_ok, trace_app_vCalls, Trace.nil]

/-- Claim C3: the VALIDATE/CORRECT loop is entered iff detailed (non-fast)
mode AND the provisional RPN from the coerced initial ratings is ≥ 9; in
every other case the candidate goes straight to FINALIZE with zero VALIDATE
calls.  Concretely: severity 3 / occurrence 2 (rpn 6) bypasses validation and
still finalizes; severity 4 / occurrence 3 (rpn 12) in detailed mode issues
at least one VALIDATE call and finalizes. -/
theorem c3_validate_gate :
    (∀ (mode : Bool) (cand entries : List (String × PyVal))
      (oracle : Nat → Except PyErr PyVal),
      pyTruthy (pyGetD cand "failure_mode" (.vStr "")) = true →
      pyTruthy (pyGetD cand "potential_effect" (.vStr "")) = true →
      oracle 0 = .ok (.vDict entries) →
      ((processFailureMode mode (.vDict cand) oracle).2.vCalls = 0 ↔
        (mode = false ∨
          (coercePair (pyGetD entries "severity" .vNull)
              (pyGetD entries "occurrence" .vNull)).1 *
            (coercePair (pyGetD entries "severity" .vNull)
              (pyGetD entries "occurrence" .vNull)).2 < 9))) ∧
    (processFailureMode true okCand lowRiskOracle).2.vCalls = 0 ∧
    (∃ r, (processFailureMode true okCand lowRiskOracle).1 = .ok (some r)) ∧
    1 ≤ (processFailureMode true okCand highRiskOracle).2.vCalls ∧
    (∃ r, (processFailureMode true okCand highRiskOracle).1 = .ok (some r)) := by
  refine ⟨?_, rfl, ⟨_, rfl⟩, by decide, ⟨_, rfl⟩⟩
  intro mode cand entries oracle hfm heff h0
  rw [processFailureMode_vCalls hfm heff h0]
  have hr := coercePair_range (pyGetD entries "severity" .vNull)
    (pyGetD entries "occurrence" .vNull)
  exact ratedPhase_vCalls hr.1 hr.2.1 hr.2.2.1 hr.2.2.2

/-- Witness for C3 at the concrete low-risk run (severity 3, occurrence 2). -/
theorem c3_witness :
    (processFailureMode true
        (.vDict [("failure_mode", .vStr "cracked weld"),
          ("potential_effect", .vStr "joint failure")]) lowRiskOracle).2.vCalls = 0 ↔
      (true = false ∨
        (coercePair (pyGetD [("severity", .vInt 3), ("occurrence", .vInt 2)]
            "severity" .vNull)
          (pyGetD [("severity", .vInt 3), ("occurrence", .vInt 2)]
            "occurrence" .vNull)).1 *
        (coercePair (pyGetD [("severity", .vInt 3), ("occurrence", .vInt 2)]
            "severity" .vNull)
          (pyGetD [("severity", .vInt 3), ("occurrence", .vInt 2)]
            "occurrence" .vNull)).2 < 9) :=
  c3_validate_gate.1 true _ _ lowRiskOracle rfl rfl rfl

theorem coerceStep2_fst (a b : PyVal) :
    (coerceStep2 a b).1 = (directConv a).getD a := by
  unfold coerceStep2
  rcases h1 : directConv a with _ | s'
  · simp
  · rcases directConv b <;> simp

theorem coerceStep2_snd_of_ok {a : PyVal} (b : PyVal) {s' : PyVal}
    (h : directConv a = some s') :
    (coerceStep2 a b).2 = (directConv b).getD b := by
  unfold coerceStep2
  rw [h]
  rcases directConv b <;> simp

theorem coerceCore_spec (v : PyVal) (hb : isBoolVal v = false) :
    coerceStep3 ((directConv (coerceStep1 v)).getD (coerceStep1 v)) =
      specCoerceField v := by
  cases v with
  | vInt n =>
    simp [coerceStep1, directConv, isPyIntInstance, specCoerceField,
      tryIntOfStr, coerceStep3]
  | vBool b => simp [isBoolVal] at hb
  | vStr s =>
    rcases hp : parseIntLit s with _ | n <;>
      simp [coerceStep1, directConv, isPyIntInstance, tryIntOfStr, hp,
        specCoerceField, coerceStep3]
  | vFloat q =>
    simp [coerceStep1, directConv, isPyIntInstance, tryIntOfStr,
      specCoerceField, coerceStep3]
  | vNull =>
    simp [coerceStep1, directConv, isPyIntInstance, tryIntOfStr,
      specCoerceField, coerceStep3]
  | vList l =>
    simp [coerceStep1, directConv, isPyIntInstance, tryIntOfStr,
      specCoerceField, coerceStep3]
  | vDict entries =>
    rcases hscan : scanDictForInt entries with _ | n <;>
      simp [coerceStep1, hscan, directConv, isPyIntInstance, tryIntOfStr,
        specCoerceField, coerceStep3]

/-- Claim C4 amended: the coercion is total and always lands in [1,5] (so no
RATE response shape fails the candidate), and it follows the claimed
per-field rule with two deviations forced by the code: a boolean field is
kept as an int instance instead of being string-converted, and the two direct
string conversions share one exception handler, so the occurrence conversion
follows the rule only when the severity side converted without an
exception. -/
theorem c4_amended :
    (∀ sev occ : PyVal,
      1 ≤ (coercePair sev occ).1 ∧ (coercePair sev occ).1 ≤ 5 ∧
      1 ≤ (coercePair sev occ).2 ∧ (coercePair sev occ).2 ≤ 5) ∧
    (∀ sev occ : PyVal, isBoolVal sev = false →
      (coercePair sev occ).1 = specCoerceField sev) ∧
    (∀ sev occ : PyVal, isBoolVal occ = false → sevConvOk sev = true →
      (coercePair sev occ).2 = specCoerceField occ) := by
  refine ⟨coercePair_range, ?_, ?_⟩
  · intro sev occ hb
    show coerceStep3 (coerceStep2 (coerceStep1 sev) (coerceStep1 occ)).1 =
      specCoerceField sev
    rw [coerceStep2_fst]
    exact coerceCore_spec sev hb
  · intro sev occ hb hok
    obtain ⟨s', hs'⟩ := Option.isSome_iff_exists.mp (by simpa [sevConvOk] using hok)
    show coerceStep3 (coerceStep2 (coerceStep1 sev) (coerceStep1 occ)).2 =
      specCoerceField occ
    rw [coerceStep2_snd_of_ok _ hs']
    exact coerceCore_spec occ hb

/-- Witness for C4 amended at concrete fields. -/
theorem c4_witness :
    (coercePair (.vInt 4) (.vStr "4")).2 = specCoerceField (.vStr "4") ∧
    (coercePair (.vStr "nope") (.vInt 2)).1 = specCoerceField (.vStr "nope") :=
  ⟨c4_amended.2.2 (.vInt 4) (.vStr "4") rfl rfl,
   c4_amended.2.1 (.vStr "nope") (.vInt 2) rfl⟩

theorem retryGo_all_timeout (outcomes : Nat → Except String PyVal) (base : Rat)
    (m : String) (hm : msgIsTimeout m = true) (hall : ∀ k, outcomes k = .error m) :
    ∀ (r i : Nat), retryGo outcomes base r i =
      (.error m, (List.range r).map (fun t => base * ((i + t + 1 : Nat) : Rat))) := by
  intro r
  induction r with
  | zero =>
    intro i
    simp [retryGo, hall i]
  | succ r ih =>
    intro i
    rw [retryGo, hall i]
    simp only [hm, if_true]
    rw [ih (i + 1)]
    simp only [List.range_succ_eq_map, List.map_cons, List.map_map,
      Prod.mk.injEq, List.cons.injEq]
    refine ⟨trivial, ?_, ?_⟩
    · push_cast
      ring
    · apply List.map_congr_left
      intro t _
      simp only [Function.comp]
      push_cast
      ring

theorem retryGo_nontimeout (outcomes : Nat → Except String PyVal) (base : Rat)
    (m : String) (i : Nat) (hm : msgIsTimeout m = false)
    (h0 : outcomes i = .error m) :
    ∀ r : Nat, retryGo outcomes base r i = (.error m, []) := by
  intro r
  cases r with
  | zero => simp [retryGo, h0]
  | succ r => rw [retryGo, h0]; simp [hm]

/-- Claim C5 counterexample: the retry loop classifies errors purely by the
substrings "timed out"/"timeout" in the lowered message, and `generate` wraps
`str(e)` of non-timeout HTTP errors verbatim — so a persistent 504 Gateway
Timeout `HTTPStatusError`, a non-timeout transport error, is retried twice
with increasing sleeps instead of propagating immediately with zero
retries. -/
theorem c5_counterexample :
    msgIsTimeout http504Msg = true ∧
    generate_with_retry (fun _ => .error http504Msg) 2 5 =
      (.error http504Msg,
        (List.range 2).map (fun t => (5 : Rat) * ((t + 1 : Nat) : Rat))) ∧
    ((List.range 2).map (fun t => (5 : Rat) * ((t + 1 : Nat) : Rat))).length = 2 ∧
    (5 : Rat) * ((0 + 1 : Nat) : Rat) < (5 : Rat) * ((1 + 1 : Nat) : Rat) := by
  refine ⟨rfl, ?_, by simp, by norm_num⟩
  unfold generate_with_retry
  rw [retryGo_all_timeout (fun _ => .error http504Msg) 5 http504Msg rfl
    (fun _ => rfl) 2 0]
  simp

/-- Claim C5 amended: `_generate_with_retry` decides whether to retry purely
by whether the lowered exception message contains "timed out" or "timeout".
Any error whose message matches — the genuine timeout exception, but also a
non-timeout transport error whose wrapped message mentions a timeout, such as
an httpx 504 Gateway Timeout status error — is retried up to the configured
count (default 2) with linearly increasing delay base_delay × attempt_number
(strictly increasing for positive base_delay) before propagating; an error
whose message contains neither substring propagates immediately with zero
retries and zero sleeps. -/
theorem c5_amended :
    (∀ (outcomes : Nat → Except String PyVal) (retries : Nat) (base : Rat)
      (m : String), msgIsTimeout m = true → (∀ k, outcomes k = .error m) →
      generate_with_retry outcomes retries base =
        (.error m, (List.range retries).map (fun t => base * ((t + 1 : Nat) : Rat)))) ∧
    (∀ (outcomes : Nat → Except String PyVal) (retries : Nat) (base : Rat)
      (m : String), msgIsTimeout m = true → (∀ k, outcomes k = .error m) →
      (generate_with_retry outcomes retries base).2.length = retries ∧
      (0 < base → (generate_with_retry outcomes retries base).2.Pairwise (· < ·))) ∧
    (∀ (outcomes : Nat → Except String PyVal) (retries : Nat) (base : Rat)
      (m : String), outcomes 0 = .error m → msgIsTimeout m = false →
      generate_with_retry outcomes retries base = (.error m, [])) ∧
    msgIsTimeout generateTimeoutMsg = true ∧
    msgIsTimeout http504Msg = true ∧
    msgIsTimeout (generateHttpErrMsg "connection refused by host") = false ∧
    defaultRetries = 2 ∧ defaultBaseDelay = 5 := by
  have key : ∀ (outcomes : Nat → Except String PyVal) (retries : Nat) (base : Rat)
      (m : String), msgIsTimeout m = true → (∀ k, outcomes k = .error m) →
      generate_with_retry outcomes retries base =
        (.error m, (List.range retries).map (fun t => base * ((t + 1 : Nat) : Rat))) := by
    intro outcomes retries base m hm hall
    unfold generate_with_retry
    rw [retryGo_all_timeout outcomes base m hm hall retries 0]
    simp
  refine ⟨key, ?_, ?_, rfl, rfl, rfl, rfl, rfl⟩
  · intro outcomes retries base m hm hall
    rw [key outcomes retries base m hm hall]
    refine ⟨by simp, ?_⟩
    intro hb
    refine List.Pairwise.map _ ?_ (List.pairwise_lt_range retries)
    intro a b hab
    have : ((a + 1 : Nat) : Rat) < ((b + 1 : Nat) : Rat) := by
      push_cast
      exact_mod_cast by omega
    exact mul_lt_mul_of_pos_left this hb
  · intro outcomes retries base m h0 hm
    unfold generate_with_retry
    exact retryGo_nontimeout outcomes base m 0 hm h0 retries

/-- Witness for C5 amended at concrete outcome sequences: the genuine timeout
and the 504 status error are both retried twice; a connection-refused error
propagates with no sleeps. -/
theorem c5_witness :
    generate_with_retry (fun _ => .error generateTimeoutMsg) 2 5 =
      (.error generateTimeoutMsg,
        (List.range 2).map (fun t => (5 : Rat) * ((t + 1 : Nat) : Rat))) ∧
    generate_with_retry (fun _ => .error http504Msg) 2 5 =
      (.error http504Msg,
        (List.range 2).map (fun t => (5 : Rat) * ((t + 1 : Nat) : Rat))) ∧
    generate_with_retry (fun _ => .error (generateHttpErrMsg "refused")) 2 5 =
      (.error (generateHttpErrMsg "refused"), []) :=
  ⟨c5_amended.1 _ 2 5 generateTimeoutMsg rfl (fun _ => rfl),
   c5_amended.1 _ 2 5 http504Msg rfl (fun _ => rfl),
   c5_amended.2.2.1 _ 2 5 (generateHttpErrMsg "refused") rfl rfl⟩

theorem riskFin_mono : ∀ a b a' b' : Fin 5, a ≤ a' → b ≤ b' →
    riskRank ((matrixLookup (((a : Nat) : Int) + 1) (((b : Nat) : Int) + 1)).getD "low") ≤
    riskRank ((matrixLookup (((a' : Nat) : Int) + 1) (((b' : Nat) : Int) + 1)).getD "low") := by
  decide

theorem riskFin_some : ∀ a b : Fin 5,
    (matrixLookup (((a : Nat) : Int) + 1) (((b : Nat) : Int) + 1)).isSome = true := by
  decide

theorem get_risk_level_in_range {s o : Int} (hs1 : 1 ≤ s) (hs5 : s ≤ 5)
    (ho1 : 1 ≤ o) (ho5 : o ≤ 5) :
    get_risk_level s o = .ok ((matrixLookup s o).getD "low") := by
  have hb1 : (s - 1).toNat < 5 := by omega
  have hb2 : (o - 1).toNat < 5 := by omega
  have h := riskFin_some ⟨(s - 1).toNat, hb1⟩ ⟨(o - 1).toNat, hb2⟩
  simp only [Fin.val_mk] at h
  have e1 : (((s - 1).toNat : Int) + 1) = s := by omega
  have e2 : (((o - 1).toNat : Int) + 1) = o := by omega
  rw [e1, e2] at h
  unfold get_risk_level
  rw [if_pos ⟨hs1, hs5, ho1, ho5⟩]
  rcases hv : matrixLookup s o with _ | v
  · rw [hv] at h
    simp at h
  · simp [hv]

/-- Claim C7: over in-range ratings, `get_risk_level` is monotonic
non-decreasing in each argument (under low < medium < high), and the boundary
values hold: (1,1) is low, (3,3) is medium, (5,5) is high. -/
theorem c7_risk_monotone :
    (∀ s o s' o' : Int, 1 ≤ s → s ≤ 5 → 1 ≤ o → o ≤ 5 →
      1 ≤ s' → s' ≤ 5 → 1 ≤ o' → o' ≤ 5 → s ≤ s' → o ≤ o' →
      ∃ r r' : String, get_risk_level s o = .ok r ∧ get_risk_level s' o' = .ok r' ∧
        riskRank r ≤ riskRank r') ∧
    get_risk_level 1 1 = .ok "low" ∧ get_risk_level 3 3 = .ok "medium" ∧
    get_risk_level 5 5 = .ok "high" := by
  refine ⟨?_, rfl, rfl, rfl⟩
  intro s o s' o' hs1 hs5 ho1 ho5 hs1' hs5' ho1' ho5' hss hoo
  refine ⟨_, _, get_risk_level_in_range hs1 hs5 ho1 ho5,
    get_risk_level_in_range hs1' hs5' ho1' ho5', ?_⟩
  have hb1 : (s - 1).toNat < 5 := by omega
  have hb2 : (o - 1).toNat < 5 := by omega
  have hb3 : (s' - 1).toNat < 5 := by omega
  have hb4 : (o' - 1).toNat < 5 := by omega
  have h := riskFin_mono ⟨(s - 1).toNat, hb1⟩ ⟨(o - 1).toNat, hb2⟩
    ⟨(s' - 1).toNat, hb3⟩ ⟨(o' - 1).toNat, hb4⟩
    (Fin.mk_le_mk.mpr (by omega)) (Fin.mk_le_mk.mpr (by omega))
  simp only [Fin.val_mk] at h
  have e1 : (((s - 1).toNat : Int) + 1) = s := by omega
  have e2 : (((o - 1).toNat : Int) + 1) = o := by omega
  have e3 : (((s' - 1).toNat : Int) + 1) = s' := by omega
  have e4 : (((o' - 1).toNat : Int) + 1) = o' := by omega
  rw [e1, e2, e3, e4] at h
  exact h

/-- Witness for C7 at the concrete in-range pairs (1,1) ≤ (2,2). -/
theorem c7_witness :
    ∃ r r' : String, get_risk_level 1 1 = .ok r ∧ get_risk_level 2 2 = .ok r' ∧
      riskRank r ≤ riskRank r' :=
  c7_risk_monotone.1 1 1 2 2 (by norm_num) (by norm_num) (by norm_num)
    (by norm_num) (by norm_num) (by norm_num) (by norm_num) (by norm_num)
    (by norm_num) (by norm_num)

/-! ## Invariant proof for the concurrency model -/

theorem opInCall_working {pc : OpPC} (h : opInCall pc = true) :
    pc = .working true := by
  cases pc with
  | waitingGate => simp [opInCall] at h
  | working b =>
    cases b
    · simp [opInCall] at h
    · rfl
  | gathering => simp [opInCall] at h
  | opDone => simp [opInCall] at h

theorem fmInCall_working {pc : FmPC} (h : fmInCall pc = true) :
    pc = .working true := by
  cases pc with
  | waitingGate => simp [fmInCall] at h
  | working b =>
    cases b
    · simp [fmInCall] at h
    · rfl
  | fmDone => simp [fmInCall] at h

theorem setFm_fm {N M : Nat} (c : GateCfg N M) (i : Fin N) (j : Fin M)
    (v : FmPC) (x : Fin N) (jj : Fin M) :
    (setFm c i j v).fm x jj =
      if x = i then Function.update (c.fm i) j v jj else c.fm x jj := by
  unfold setFm
  by_cases hxi : x = i <;> simp [hxi]

theorem ginv_setOp {N M : Nat} {c : GateCfg N M} {i : Fin N} {v : OpPC}
    (hi : GInv c) (hv : opHolds v = opHolds (c.op i))
    (hc : ∀ j : Fin M, fmHolds (c.fm i j) = true → v = .gathering) :
    GInv (setOp c i v) := by
  obtain ⟨h1, h2, h3⟩ := hi
  refine ⟨?_, h2, ?_⟩
  · intro x y hx hy
    simp only [setOp, Function.update_apply] at hx hy
    apply h1 x y
    · by_cases hxi : x = i
      · rw [if_pos hxi] at hx
        rw [hxi]
        rw [← hv]
        exact hx
      · rw [if_neg hxi] at hx
        exact hx
    · by_cases hyi : y = i
      · rw [if_pos hyi] at hy
        rw [hyi]
        rw [← hv]
        exact hy
      · rw [if_neg hyi] at hy
        exact hy
  · intro x j hf
    simp only [setOp] at hf
    simp only [setOp, Function.update_apply]
    by_cases hxi : x = i
    · rw [if_pos hxi]
      refine hc j ?_
      rw [← hxi]
      exact hf
    · rw [if_neg hxi]
      exact h3 x j hf

theorem ginv_setFm_same {N M : Nat} {c : GateCfg N M} {i : Fin N} {j : Fin M}
    {v : FmPC} (hi : GInv c) (hv : fmHolds v = fmHolds (c.fm i j)) :
    GInv (setFm c i j v) := by
  obtain ⟨h1, h2, h3⟩ := hi
  have hpt : ∀ (x : Fin N) (jj : Fin M),
      fmHolds ((setFm c i j v).fm x jj) = fmHolds (c.fm x jj) := by
    intro x jj
    rw [setFm_fm]
    by_cases hxi : x = i
    · rw [if_pos hxi]
      rw [Function.update_apply]
      by_cases hjj : jj = j
      · rw [if_pos hjj, hjj, hxi, hv]
      · rw [if_neg hjj, hxi]
    · rw [if_neg hxi]
  refine ⟨h1, ?_, ?_⟩
  · intro x jj jj' ha hb
    rw [hpt] at ha hb
    exact h2 x jj jj' ha hb
  · intro x jj ha
    rw [hpt] at ha
    exact h3 x jj ha

theorem ginv_init (N M : Nat) : GInv (initCfg N M) := by
  refine ⟨?_, ?_, ?_⟩
  · intro i i' hi1 hi2
    simp [initCfg, opHolds] at hi1
  · intro i j j' hj1 hj2
    simp [initCfg, fmHolds] at hj1
  · intro i j hj
    simp [initCfg, fmHolds] at hj

theorem ginv_step {N M : Nat} {c c' : GateCfg N M} (hs : GStep c c')
    (hi : GInv c) : GInv c' := by
  obtain ⟨h1, h2, h3⟩ := hi
  cases hs with
  | opAcquire i h hfree =>
    refine ⟨?_, h2, ?_⟩
    · intro x y hx hy
      simp only [setOp, Function.update_apply] at hx hy
      by_cases hxi : x = i
      · by_cases hyi : y = i
        · rw [hxi, hyi]
        · rw [if_neg hyi] at hy
          rw [hfree y] at hy
          exact Bool.noConfusion hy
      · rw [if_neg hxi] at hx
        rw [hfree x] at hx
        exact Bool.noConfusion hx
    · intro x j hf
      simp only [setOp] at hf
      have hg := h3 x j hf
      simp only [setOp, Function.update_apply]
      by_cases hxi : x = i
      · exfalso
        rw [hxi, h] at hg
        exact OpPC.noConfusion hg
      · rw [if_neg hxi]
        exact hg
  | opEnter i h =>
    refine ginv_setOp ⟨h1, h2, h3⟩ (by rw [h]; rfl) ?_
    intro j hf
    exfalso
    have hg := h3 i j hf
    rw [h] at hg
    exact OpPC.noConfusion hg
  | opExit i h =>
    refine ginv_setOp ⟨h1, h2, h3⟩ (by rw [h]; rfl) ?_
    intro j hf
    exfalso
    have hg := h3 i j hf
    rw [h] at hg
    exact OpPC.noConfusion hg
  | opGather i h =>
    refine ginv_setOp ⟨h1, h2, h3⟩ (by rw [h]; rfl) ?_
    intro j hf
    rfl
  | opRelease i h hall =>
    refine ⟨?_, h2, ?_⟩
    · intro x y hx hy
      simp only [setOp, Function.update_apply] at hx hy
      by_cases hxi : x = i
      · rw [if_pos hxi] at hx
        exact Bool.noConfusion hx
      · rw [if_neg hxi] at hx
        by_cases hyi : y = i
        · rw [if_pos hyi] at hy
          exact Bool.noConfusion hy
        · rw [if_neg hyi] at hy
          exact h1 x y hx hy
    · intro x j hf
      simp only [setOp] at hf
      simp only [setOp, Function.update_apply]
      by_cases hxi : x = i
      · exfalso
        rw [hxi] at hf
        rw [hall j] at hf
        exact Bool.noConfusion hf
      · rw [if_neg hxi]
        exact h3 x j hf
  | fmAcquire i j h hpar hfree =>
    refine ⟨h1, ?_, ?_⟩
    · intro x jj jj' ha hb
      rw [setFm_fm] at ha hb
      by_cases hxi : x = i
      · rw [if_pos hxi, Function.update_apply] at ha hb
        by_cases hja : jj = j
        · by_cases hjb : jj' = j
          · rw [hja, hjb]
          · rw [if_neg hjb] at hb
            rw [hfree jj'] at hb
            exact Bool.noConfusion hb
        · rw [if_neg hja] at ha
          rw [hfree jj] at ha
          exact Bool.noConfusion ha
      · rw [if_neg hxi] at ha hb
        exact h2 x jj jj' ha hb
    · intro x jj ha
      rw [setFm_fm] at ha
      simp only [setFm]
      by_cases hxi : x = i
      · rw [hxi]
        exact hpar
      · rw [if_neg hxi] at ha
        exact h3 x jj ha
  | fmEnter i j h =>
    exact ginv_setFm_same ⟨h1, h2, h3⟩ (by rw [h]; rfl)
  | fmExit i j h =>
    exact ginv_setFm_same ⟨h1, h2, h3⟩ (by rw [h]; rfl)
  | fmRelease i j h =>
    refine ⟨h1, ?_, ?_⟩
    · intro x jj jj' ha hb
      rw [setFm_fm] at ha hb
      by_cases hxi : x = i
      · rw [if_pos hxi, Function.update_apply] at ha hb
        by_cases hja : jj = j
        · rw [if_pos hja] at ha
          exact Bool.noConfusion ha
        · rw [if_neg hja] at ha
          by_cases hjb : jj' = j
          · rw [if_pos hjb] at hb
            exact Bool.noConfusion hb
          · rw [if_neg hjb] at hb
            exact h2 i jj jj' (hxi ▸ ha) (hxi ▸ hb)
      · rw [if_neg hxi] at ha hb
        exact h2 x jj jj' ha hb
    · intro x jj ha
      rw [setFm_fm] at ha
      simp only [setFm]
      by_cases hxi : x = i
      · rw [if_pos hxi, Function.update_apply] at ha
        by_cases hja : jj = j
        · rw [if_pos hja] at ha
          exact Bool.noConfusion ha
        · rw [if_neg hja] at ha
          exact hxi ▸ h3 i jj (hxi ▸ ha)
      · rw [if_neg hxi] at ha
        exact h3 x jj ha

theorem inFlight_le_one {N M : Nat} {c : GateCfg N M} (hi : GInv c) :
    inFlight c ≤ 1 := by
  obtain ⟨h1, h2, h3⟩ := hi
  classical
  unfold inFlight
  set A := Finset.univ.filter (fun i : Fin N => opInCall (c.op i) = true) with hA
  set B := Finset.univ.filter
    (fun p : Fin N × Fin M => fmInCall (c.fm p.1 p.2) = true) with hB
  have hAmem : ∀ x ∈ A, c.op x = .working true := by
    intro x hx
    rw [hA, Finset.mem_filter] at hx
    exact opInCall_working hx.2
  have hBmem : ∀ p ∈ B, c.fm p.1 p.2 = .working true := by
    intro p hp
    rw [hB, Finset.mem_filter] at hp
    exact fmInCall_working hp.2
  have hBgather : ∀ p ∈ B, c.op p.1 = .gathering := by
    intro p hp
    refine h3 p.1 p.2 ?_
    rw [hBmem p hp]
    rfl
  rcases Finset.eq_empty_or_nonempty A with hAe | hAn
  · rw [hAe]
    simp only [Finset.card_empty, Nat.zero_add]
    refine Finset.card_le_one.mpr ?_
    intro p hp q hq
    have hpq1 : p.1 = q.1 := by
      refine h1 p.1 q.1 ?_ ?_
      · rw [hBgather p hp]; rfl
      · rw [hBgather q hq]; rfl
    have hpq2 : p.2 = q.2 := by
      refine h2 p.1 p.2 q.2 ?_ ?_
      · rw [hBmem p hp]; rfl
      · rw [hpq1, hBmem q hq]; rfl
    exact Prod.ext hpq1 hpq2
  · obtain ⟨a, ha⟩ := hAn
    have hBe : B = ∅ := by
      rw [Finset.eq_empty_iff_forall_not_mem]
      intro p hp
      have heq : a = p.1 := by
        refine h1 a p.1 ?_ ?_
        · rw [hAmem a ha]; rfl
        · rw [hBgather p hp]; rfl
      have h4 := hAmem a ha
      rw [heq, hBgather p hp] at h4
      exact OpPC.noConfusion h4
    rw [hBe]
    simp only [Finset.card_empty, Nat.add_zero]
    refine Finset.card_le_one.mpr ?_
    intro x hx y hy
    refine h1 x y ?_ ?_
    · rw [hAmem x hx]; rfl
    · rw [hAmem y hy]; rfl

theorem ginv_reach {N M : Nat} {c : GateCfg N M} (h : ReachCfg c) : GInv c := by
  unfold ReachCfg at h
  induction h with
  | refl => exact ginv_init N M
  | tail hst hstep ih => exact ginv_step hstep ih

/-- Claim C8 amended: the two fan-out levels do NOT share one gate — each is
guarded by its own locally created semaphore (see the counterexample) — but
with both capacities hard-coded to 1 the bound still holds: in every
configuration reachable by interleaving the operation tasks and candidate
tasks, the number of simultaneously outstanding model calls is at most 1,
because the operation-level semaphore serializes the operations and the
per-operation candidate semaphore serializes the candidates within the
operation holding it. -/
theorem c8_amended :
    ∀ (N M : Nat) (c : GateCfg N M), ReachCfg c → inFlight c ≤ 1 :=
  fun _ _ _ h => inFlight_le_one (ginv_reach h)

/-- Witness for C8 amended at the initial configuration of a 1×1 run. -/
theorem c8_witness : inFlight (initCfg 1 1) ≤ 1 :=
  c8_amended 1 1 (initCfg 1 1) Relation.ReflTransGen.refl
